import Mathlib

/-!
Verification development for the nu801 userspace LED controller
(`nu801.c`): a shallow embedding of its frame encoder (`handle_leds`),
bus driver helpers (`gpio_set` / `gpio_commit` over a staged 64-bit
`gpio_v2_line_values.bits` word), update dispatcher (the serve loop of
`main`), `teardown`, and the `fatal_error_signal` handler, together with
theorems about the properties stated in the specification.
-/

set_option maxRecDepth 16384

namespace NU801

/-! ### GPIO lines and the staged bus state

The program stages line levels into the 64-bit `values.bits` word of a
`struct gpio_v2_line_values` and flushes it with `gpiotools_set_values`.
Line offsets come from `enum nu801_gpio_t`. -/

/-- Line offset `NU801_CKI = 0` (clock). -/
def CKI : Nat := 0

/-- Line offset `NU801_SDI = 1` (data). -/
def SDI : Nat := 1

/-- Line offset `NU801_LEI = 2` (latch enable). -/
def LEI : Nat := 2

/-- Modelled from the spec: the gpio-utils collaborator primitive
`gpiotools_assign_bit(&values.bits, n, value)` behind `gpio_set` — it stages a
logical level by setting (value = true) or clearing (value = false) bit `n`
of the 64-bit staged value word, a pure in-memory mutation (spec section 4.1:
`set_line(line_id, level)` stages a logical level into BusState). -/
def assignBit (b : Nat) (n : Nat) (value : Bool) : Nat :=
  if value then b ||| (1 <<< n) else b &&& ((2 ^ 64 - 1) ^^^ (1 <<< n))

/-- Observable bus events of a run: `commit bits` is one `gpio_commit()`
(i.e. `gpiotools_set_values`) flushing the staged 64-bit word `bits`;
`delayU u` is `udelay(u)`; `delayN n` is `ndelay(n)`; `release` is the
`gpiotools_release_line` call in `teardown`.  `gpio_commit` is `void` in the
source: it discards the return value of the underlying write, so no
success/failure information flows back into the program. -/
inductive Ev where
  | commit (bits : Nat)
  | delayU (usec : Nat)
  | delayN (nsec : Nat)
  | release
deriving DecidableEq, Repr

/-! ### Hardware catalog (`struct hardware_definitions supported_hardware[]`) -/

/-- One entry of `supported_hardware`.  The C sentinel `lei = ~0`
("no dedicated latch line") is the unsigned-int value 4294967295. -/
structure HW where
  id : String
  board : Option String
  cki : Nat
  sdi : Nat
  lei : Nat
  ndelay : Nat
  colors : List String
  functions : List String
deriving Repr

/-- The unsigned-int value of the C expression `~0`. -/
def U32_ALL_ONES : Nat := 4294967295

/-- Catalog entry `"cisco-mx100-hw"` (board "mx100"): cki 41, sdi 6, lei 5
(a real latch line), ndelay 150, colors blue/green/red. -/
def cisco_mx100_hw : HW :=
  { id := "cisco-mx100-hw", board := some "mx100", cki := 41, sdi := 6,
    lei := 5, ndelay := 150,
    colors := ["blue", "green", "red"],
    functions := ["tricolor", "tricolor", "tricolor"] }

/-- Catalog entry `"meraki,z1"`: cki 14, sdi 15, lei = `~0` (no latch line),
ndelay 500, colors blue/green/red. -/
def meraki_z1 : HW :=
  { id := "meraki,z1", board := none, cki := 14, sdi := 15,
    lei := U32_ALL_ONES, ndelay := 500,
    colors := ["blue", "green", "red"],
    functions := ["tricolor", "tricolor", "tricolor"] }

/-- Catalog entry `"meraki,mr18"`: cki 11, sdi 12, lei = `~0` (no latch line),
ndelay 500, colors red/green/blue. -/
def meraki_mr18 : HW :=
  { id := "meraki,mr18", board := none, cki := 11, sdi := 12,
    lei := U32_ALL_ONES, ndelay := 500,
    colors := ["red", "green", "blue"],
    functions := ["tricolor", "tricolor", "tricolor"] }

/-- The catalog `supported_hardware` (without the `{ 0, }` sentinel). -/
def supported_hardware : List HW := [cisco_mx100_hw, meraki_z1, meraki_mr18]

/-- The latch-presence test used throughout `nu801.c`: the C expression
`(~0 ^ dev->gpio.num.lei)` is nonzero exactly when a dedicated latch line
exists (`lei` differs from the `~0` sentinel). -/
def hasLatch (dev : HW) : Bool := (U32_ALL_ONES ^^^ dev.lei) != 0

/-! ### Brightness-to-PWM mapping -/

/-- Two's-complement bit pattern of a 32-bit signed `int` value, as a Nat. -/
def toU32 (b : Int) : Nat := (b % (2 ^ 32 : Int)).toNat

/-- The assignment `hwval = led->brightness << 8` of `handle_leds`:
`brightness` is a 32-bit signed `int`, `hwval` a `uint16_t`, so the shifted
bit pattern is truncated to its low 16 bits (no clamping). -/
def hwvalOf (b : Int) : Nat := (toU32 b <<< 8) % 2 ^ 16

/-! ### Frame encoder (`handle_leds`) -/

/-- Body of one iteration of the bit loop of `handle_leds`
(`for (bit = 0x8000; bit; bit >>= 1)`): stage the data bit, raise the clock,
commit, hold the clock high for 600us on the very last bit of the very last
channel when there is no latch line, lower the clock, commit, then pause for
the profile's inter-bit delay.  `isLast` is the C condition
`i == (num_leds - 1)`. -/
def xmitBit (dev : HW) (isLast : Bool) (hwval bit : Nat) (st : Nat) : Nat × List Ev :=
  let st1 := assignBit st SDI ((hwval &&& bit) != 0)
  let st2 := assignBit st1 CKI true
  let hold : List Ev :=
    if isLast && (bit == 1) && !hasLatch dev then [Ev.delayU 600] else []
  let st3 := assignBit st2 CKI false
  (st3, Ev.commit st2 :: (hold ++ [Ev.commit st3, Ev.delayN dev.ndelay]))

/-- The bit loop over a list of bit masks, threading the staged bus word. -/
def xmitBits (dev : HW) (isLast : Bool) (hwval : Nat) : List Nat → Nat → Nat × List Ev
  | [], st => (st, [])
  | bit :: rest, st =>
    let r1 := xmitBit dev isLast hwval bit st
    let r2 := xmitBits dev isLast hwval rest r1.1
    (r2.1, r1.2 ++ r2.2)

/-- The sixteen masks visited by `for (bit = 0x8000; bit; bit >>= 1)`,
MSB first. -/
def bitMasks : List Nat :=
  [32768, 16384, 8192, 4096, 2048, 1024, 512, 256, 128, 64, 32, 16, 8, 4, 2, 1]

/-- The channel loop of `handle_leds` over the current brightness values of
`leds[0..num_leds-1]`, in registration order.  `rest.isEmpty` is the C
condition `i == (num_leds - 1)` for a loop running over exactly the
`num_leds` stored brightness values. -/
def xmitChannels (dev : HW) : List Int → Nat → Nat × List Ev
  | [], st => (st, [])
  | b :: rest, st =>
    let r1 := xmitBits dev rest.isEmpty (hwvalOf b) bitMasks st
    let r2 := xmitChannels dev rest r1.1
    (r2.1, r1.2 ++ r2.2)

/-- `handle_leds`: bit-bang all channels, then — only when the profile has a
dedicated latch line — raise the latch, commit, wait one inter-bit delay,
lower the latch and commit (with no trailing delay).  Returns the final
staged bus word and the event trace. -/
def handle_leds (dev : HW) (brs : List Int) (st : Nat) : Nat × List Ev :=
  let r := xmitChannels dev brs st
  if hasLatch dev then
    let st2 := assignBit r.1 LEI true
    let st3 := assignBit st2 LEI false
    (st3, r.2 ++ [Ev.commit st2, Ev.delayN dev.ndelay, Ev.commit st3])
  else r

/-! ### Trace observations -/

/-- Event predicate: the 600us clock-high hold (`udelay` is called at exactly
one site, the datasheet latch-by-hold rule). -/
def isHold : Ev → Bool
  | .delayU _ => true
  | _ => false

/-- Event predicate: a `gpio_commit()`. -/
def isCommitEv : Ev → Bool
  | .commit _ => true
  | _ => false

/-- Event predicate: a `gpiotools_release_line`. -/
def isRelease : Ev → Bool
  | .release => true
  | _ => false

/-- Bool-valued check that a commit snapshot holds level `v` on the latch
line (non-commit events pass). -/
def evLEIok (v : Bool) : Ev → Bool
  | .commit b => b.testBit LEI == v
  | _ => true

/-- The data-line levels sampled at each rising clock edge, i.e. at every
committed snapshot whose clock bit is high — the bits the NU801 chip shifts
in. -/
def dataBitsAtRisingClock (tr : List Ev) : List Bool :=
  tr.filterMap fun e =>
    match e with
    | .commit b => if b.testBit CKI then some (b.testBit SDI) else none
    | _ => none

/-- Success/failure outcomes of the underlying `gpiotools_set_values` writes
of a run, one per commit in the trace, drawn from an environment oracle
`okOf`.  The program never consumes these values: `gpio_commit` is `void`. -/
def commitOutcomes (okOf : Nat → Bool) (tr : List Ev) : List Bool :=
  (List.range (tr.countP isCommitEv)).map okOf

/-- The trace pattern of spec section 4.2 step 3, no-latch path: the encode
ends with the rising-edge commit of the final bit, a 600us clock-high hold,
the falling-edge commit, and the inter-bit delay. -/
def EndsWith600Hold (tr : List Ev) (nd : Nat) : Prop :=
  ∃ pre hi, tr = pre ++
      [Ev.commit hi, Ev.delayU 600, Ev.commit (assignBit hi CKI false), Ev.delayN nd] ∧
    hi.testBit CKI = true

/-- The trace pattern of spec section 4.2 step 3, latch path: the encode ends
with a commit of the latch raised, one inter-bit delay, and a commit of the
latch lowered. -/
def EndsWithLatchPulse (tr : List Ev) (nd : Nat) : Prop :=
  ∃ pre hi, tr = pre ++
      [Ev.commit hi, Ev.delayN nd, Ev.commit (assignBit hi LEI false)] ∧
    hi.testBit LEI = true

/-! ### Update dispatcher (serve loop of `main`), `teardown`, signals -/

/-- One `struct nu801_led_struct`: the `/dev/uleds` handle and the current
brightness. -/
structure Led where
  fd : Int
  brightness : Int
deriving DecidableEq, Repr

/-- Result of the `read(leds[i].fd, &brightness, sizeof(brightness))` call in
the serve loop: `data b` models a positive return count with new brightness
`b`, `eof` a 0 return, `err` a negative return. -/
inductive ReadResult where
  | data (brightness : Int)
  | eof
  | err
deriving DecidableEq, Repr

/-- Whether a read result is non-positive (the serve loop's fatal case). -/
def readFails : ReadResult → Bool
  | .data _ => false
  | _ => true

/-- The per-wake-up drain loop of `main`: each LED whose handle signalled
readability (`FD_ISSET`, modelled by index) is read once; a non-positive
result stops the loop carrying `ret = ((ret < 0) ? -1 : ret)` — 0 for EOF,
-1 for a read error — with the already-drained prefix keeping its updated
brightness values; otherwise the LED's brightness is overwritten. -/
def drainLeds (ready : Nat → Bool) (rd : Nat → ReadResult) :
    List Led → Nat → List Led × Option Int
  | [], _ => ([], none)
  | l :: rest, i =>
    if ready i then
      match rd i with
      | .data b =>
        let r := drainLeds ready rd rest (i + 1)
        ({ l with brightness := b } :: r.1, r.2)
      | .eof => (l :: rest, some 0)
      | .err => (l :: rest, some (-1))
    else
      let r := drainLeds ready rd rest (i + 1)
      (l :: r.1, r.2)

/-- Outcome of one serve-loop wake-up: either the loop continues (with the
updated LED table, the frame-encode trace and the new staged bus word), or it
exits via `goto out` carrying `ret`. -/
inductive StepOut where
  | cont (leds : List Led) (trace : List Ev) (busBits : Nat)
  | exitLoop (ret : Int) (leds : List Led)
deriving DecidableEq, Repr

/-- Whether a wake-up outcome keeps the serve loop running. -/
def StepOut.isCont : StepOut → Bool
  | .cont .. => true
  | _ => false

/-- The GPIO trace of a wake-up outcome (empty on loop exit: `handle_leds`
is not reached). -/
def StepOut.traceOf : StepOut → List Ev
  | .cont _ tr _ => tr
  | _ => []

/-- One wake-up of the serve loop body: drain every ready LED handle once;
on a non-positive read exit the loop with `ret`, otherwise unconditionally
re-encode the full frame over all channels (`handle_leds(dev)`).  Note that
the loop-exit decision depends only on the read results — commit outcomes
are discarded by `gpio_commit` and never reach this code. -/
def serveWakeup (dev : HW) (leds : List Led) (busBits : Nat)
    (ready : Nat → Bool) (rd : Nat → ReadResult) : StepOut :=
  let d := drainLeds ready rd leds 0
  match d.2 with
  | some r => .exitLoop r d.1
  | none =>
    let f := handle_leds dev (d.1.map (·.brightness)) busBits
    .cont d.1 f.2 f.1

/-- Program state acted on by `teardown`: the LED table, the staged bus word
and `gpio_fd`. -/
structure TState where
  leds : List Led
  busBits : Nat
  gpio_fd : Int
deriving DecidableEq, Repr

/-- The fd-closing step of `teardown`'s second loop:
`if (leds[i].fd > 0) { close(leds[i].fd); leds[i].fd = -1; }`. -/
def closeLed (l : Led) : Led :=
  if l.fd > 0 then { l with fd := -1 } else l

/-- `teardown`: when the GPIO handle is held (`gpio_fd > 0`), zero every
channel's brightness, encode and commit one final frame, release the GPIO
lines and mark `gpio_fd = -1`; in every case close all still-open LED
handles.  Returns the new state and the GPIO event trace. -/
def teardown (dev : HW) (st : TState) : TState × List Ev :=
  let r : TState × List Ev :=
    if st.gpio_fd > 0 then
      let leds0 := st.leds.map fun l => { l with brightness := 0 }
      let f := handle_leds dev (leds0.map (·.brightness)) st.busBits
      ({ leds := leds0, busBits := f.1, gpio_fd := -1 }, f.2 ++ [Ev.release])
    else (st, [])
  ({ r.1 with leds := r.1.leds.map closeLed }, r.2)

/-- The `out:` epilogue of `main`: run `teardown`, then
`return ret ? EXIT_FAILURE : EXIT_SUCCESS` (1 and 0 respectively).  Returns
the final state, the teardown GPIO trace and the process exit code. -/
def serve_exit (dev : HW) (st : TState) (ret : Int) : TState × List Ev × Nat :=
  let t := teardown dev st
  (t.1, t.2, if ret ≠ 0 then 1 else 0)

/-- State seen by the signal handler: the `fatal_error_in_progress` latch and
the rest of the program state. -/
structure SigState where
  flag : Bool
  tstate : TState
deriving DecidableEq, Repr

/-- Actions performed by one handler invocation: a `raise(sig)` call, the
`teardown()` call together with its GPIO trace, and `signal(sig, SIG_DFL)`. -/
inductive SigAct where
  | raised (sig : Nat)
  | teardownRun (evs : List Ev)
  | setDefault (sig : Nat)
deriving DecidableEq, Repr

/-- A `teardownRun` action that performed real GPIO work. -/
def isTeardownWork : SigAct → Bool
  | .teardownRun evs => !evs.isEmpty
  | _ => false

/-- One sequential invocation of `fatal_error_signal(sig)`.  When
`fatal_error_in_progress` is already set the code calls `raise(sig)`; `sig`
is blocked while its own handler runs, so the raise only marks it pending and
returns, and — the body containing no `return` statement — execution falls
through: the latch is set (again), `teardown()` runs, the disposition of
`sig` is reset to `SIG_DFL` and `sig` is raised (to be delivered with default
disposition once the handler returns). -/
def fatal_error_signal (dev : HW) (sig : Nat) (st : SigState) : SigState × List SigAct :=
  let pre : List SigAct := if st.flag then [SigAct.raised sig] else []
  let st1 : SigState := { st with flag := true }
  let t := teardown dev st1.tstate
  ({ flag := true, tstate := t.1 },
   pre ++ [SigAct.teardownRun t.2, SigAct.setDefault sig, SigAct.raised sig])

end NU801

namespace NU801

/-! ### Bit-level facts about `assignBit` -/

/-- All 64 low bits of the mask `2 ^ 64 - 1` are set. -/
theorem testBit_all_ones {n : Nat} (hn : n < 64) :
    Nat.testBit (2 ^ 64 - 1) n = true := by
  rw [Nat.testBit_two_pow_sub_one]
  simpa using hn

/-- Setting or clearing bit `n` (with `n < 64`) makes bit `n` read back as the
assigned level. -/
theorem testBit_assignBit_self (b n : Nat) (v : Bool) (hn : n < 64) :
    (assignBit b n v).testBit n = v := by
  cases v with
  | true =>
    simp [assignBit, Nat.one_shiftLeft, Nat.testBit_lor, Nat.testBit_two_pow_self]
  | false =>
    show (b &&& (2 ^ 64 - 1 ^^^ 1 <<< n)).testBit n = false
    rw [Nat.testBit_land, Nat.testBit_xor, Nat.one_shiftLeft,
      testBit_all_ones hn, Nat.testBit_two_pow_self]
    simp

/-- Setting or clearing bit `n` leaves any other bit `m < 64` unchanged. -/
theorem testBit_assignBit_other (b : Nat) (n m : Nat) (v : Bool) (hm : m < 64)
    (hnm : n ≠ m) : (assignBit b n v).testBit m = b.testBit m := by
  cases v with
  | true =>
    simp [assignBit, Nat.one_shiftLeft, Nat.testBit_lor,
      Nat.testBit_two_pow_of_ne hnm]
  | false =>
    show (b &&& (2 ^ 64 - 1 ^^^ 1 <<< n)).testBit m = b.testBit m
    rw [Nat.testBit_land, Nat.testBit_xor, Nat.one_shiftLeft,
      testBit_all_ones hm, Nat.testBit_two_pow_of_ne hnm]
    simp

/-! ### Shape of one bit transmission -/

/-- The staged word after one bit: data bit staged, clock raised, clock
lowered again. -/
theorem xmitBit_fst (dev : HW) (L : Bool) (h bit st : Nat) :
    (xmitBit dev L h bit st).1 =
      assignBit (assignBit (assignBit st SDI ((h &&& bit) != 0)) CKI true) CKI false := rfl

/-- The events of one bit: rising-edge commit, optional 600us hold,
falling-edge commit, inter-bit delay. -/
theorem xmitBit_snd (dev : HW) (L : Bool) (h bit st : Nat) :
    (xmitBit dev L h bit st).2 =
      Ev.commit (assignBit (assignBit st SDI ((h &&& bit) != 0)) CKI true) ::
        ((if L && (bit == 1) && !hasLatch dev then [Ev.delayU 600] else []) ++
          [Ev.commit (xmitBit dev L h bit st).1, Ev.delayN dev.ndelay]) := rfl

/-- After any bit, the staged clock level is low. -/
theorem xmitBit_fst_cki (dev : HW) (L : Bool) (h bit st : Nat) :
    (xmitBit dev L h bit st).1.testBit CKI = false := by
  rw [xmitBit_fst]
  exact testBit_assignBit_self _ CKI false (by decide)

/-- After any bit, the staged data level is that bit's value. -/
theorem xmitBit_fst_sdi (dev : HW) (L : Bool) (h bit st : Nat) :
    (xmitBit dev L h bit st).1.testBit SDI = ((h &&& bit) != 0) := by
  rw [xmitBit_fst,
    testBit_assignBit_other _ CKI SDI false (by decide) (by decide),
    testBit_assignBit_other _ CKI SDI true (by decide) (by decide),
    testBit_assignBit_self _ SDI _ (by decide)]

/-- Transmitting a bit never touches the staged latch level. -/
theorem xmitBit_fst_lei (dev : HW) (L : Bool) (h bit st : Nat) :
    (xmitBit dev L h bit st).1.testBit LEI = st.testBit LEI := by
  rw [xmitBit_fst,
    testBit_assignBit_other _ CKI LEI false (by decide) (by decide),
    testBit_assignBit_other _ CKI LEI true (by decide) (by decide),
    testBit_assignBit_other _ SDI LEI _ (by decide) (by decide)]

/-! ### The bit loop -/

/-- The bit loop over an appended mask list runs the two halves in
sequence. -/
theorem xmitBits_append (dev : HW) (L : Bool) (h : Nat) (l1 l2 : List Nat) (st : Nat) :
    xmitBits dev L h (l1 ++ l2) st =
      ((xmitBits dev L h l2 (xmitBits dev L h l1 st).1).1,
        (xmitBits dev L h l1 st).2 ++ (xmitBits dev L h l2 (xmitBits dev L h l1 st).1).2) := by
  induction l1 generalizing st with
  | nil => simp [xmitBits]
  | cons bit rest ih => simp [xmitBits, ih, List.append_assoc]

/-- Holds emitted by one bit: one iff it is the final bit of the final
channel and the profile has no latch line. -/
theorem countP_isHold_xmitBit (dev : HW) (L : Bool) (h bit st : Nat) :
    ((xmitBit dev L h bit st).2.countP isHold) =
      if L && (bit == 1) && !hasLatch dev then 1 else 0 := by
  rw [xmitBit_snd]
  split <;> simp [List.countP_cons, List.countP_nil, isHold]

/-- Holds emitted by a mask list: one per mask equal to 1, and only on the
final channel of a no-latch profile. -/
theorem countP_isHold_xmitBits (dev : HW) (L : Bool) (h : Nat) (l : List Nat) (st : Nat) :
    ((xmitBits dev L h l st).2.countP isHold) =
      l.countP (fun bit => L && (bit == 1) && !hasLatch dev) := by
  induction l generalizing st with
  | nil => simp [xmitBits]
  | cons bit rest ih =>
    simp [xmitBits, List.countP_append, List.countP_cons, countP_isHold_xmitBit, ih]
    split <;> simp [Nat.add_comm]

/-- Holds emitted by one full 16-bit channel. -/
theorem countP_isHold_channel (dev : HW) (L : Bool) (h st : Nat) :
    ((xmitBits dev L h bitMasks st).2.countP isHold) =
      if L && !hasLatch dev then 1 else 0 := by
  rw [countP_isHold_xmitBits]
  cases L <;> cases hl : hasLatch dev <;> (simp [hl]; try decide)

/-- One-step unfolding of the channel loop. -/
theorem xmitChannels_cons (dev : HW) (b : Int) (rest : List Int) (st : Nat) :
    xmitChannels dev (b :: rest) st =
      ((xmitChannels dev rest (xmitBits dev rest.isEmpty (hwvalOf b) bitMasks st).1).1,
        (xmitBits dev rest.isEmpty (hwvalOf b) bitMasks st).2 ++
          (xmitChannels dev rest (xmitBits dev rest.isEmpty (hwvalOf b) bitMasks st).1).2) :=
  rfl

/-- On a latch-equipped profile, `handle_leds` appends the latch pulse:
latch raised and committed, one inter-bit delay, latch lowered and
committed. -/
theorem handle_leds_latch_eq (dev : HW) (brs : List Int) (st : Nat)
    (hl : hasLatch dev = true) :
    handle_leds dev brs st =
      (assignBit (assignBit (xmitChannels dev brs st).1 LEI true) LEI false,
        (xmitChannels dev brs st).2 ++
          [Ev.commit (assignBit (xmitChannels dev brs st).1 LEI true),
            Ev.delayN dev.ndelay,
            Ev.commit (assignBit (assignBit (xmitChannels dev brs st).1 LEI true) LEI false)]) := by
  simp [handle_leds, hl]

/-- On a no-latch profile, `handle_leds` is exactly the channel loop. -/
theorem handle_leds_nolatch_eq (dev : HW) (brs : List Int) (st : Nat)
    (hl : hasLatch dev = false) :
    handle_leds dev brs st = xmitChannels dev brs st := by
  simp [handle_leds, hl]

/-- Holds emitted by the whole channel loop: exactly one for a no-latch
profile (on the last channel), none otherwise. -/
theorem countP_isHold_xmitChannels (dev : HW) (b : Int) (rest : List Int) (st : Nat) :
    ((xmitChannels dev (b :: rest) st).2.countP isHold) =
      if hasLatch dev then 0 else 1 := by
  induction rest generalizing b st with
  | nil =>
    rw [xmitChannels_cons, List.countP_append, countP_isHold_channel]
    simp only [xmitChannels, List.countP_nil, List.isEmpty_nil, Bool.true_and]
    cases hl : hasLatch dev <;> simp
  | cons b2 rest2 ih =>
    rw [xmitChannels_cons, List.countP_append, countP_isHold_channel, ih b2]
    simp

/-- Holds emitted by a whole frame encode: exactly one without a latch line,
none with one — the latch block itself emits no `udelay`. -/
theorem countP_isHold_handle_leds (dev : HW) (b : Int) (rest : List Int) (st : Nat) :
    ((handle_leds dev (b :: rest) st).2.countP isHold) =
      if hasLatch dev then 0 else 1 := by
  cases hl : hasLatch dev with
  | true =>
    rw [handle_leds_latch_eq dev _ st hl, List.countP_append,
      countP_isHold_xmitChannels, hl]
    simp [List.countP_cons, List.countP_nil, isHold]
  | false =>
    rw [handle_leds_nolatch_eq dev _ st hl, countP_isHold_xmitChannels, hl]

end NU801

namespace NU801

/-! ### Trace suffix structure -/

/-- The sixteen bit masks split off their final mask, 1. -/
theorem bitMasks_eq_append :
    bitMasks = [32768, 16384, 8192, 4096, 2048, 1024, 512, 256,
      128, 64, 32, 16, 8, 4, 2] ++ [1] := rfl

/-- Transmitting the last channel of a no-latch profile ends with the
rising-edge commit of its last bit, the 600us clock-high hold, the
falling-edge commit, and one inter-bit delay. -/
theorem xmitBits_last_channel_hold (dev : HW) (h st : Nat)
    (hl : hasLatch dev = false) :
    EndsWith600Hold (xmitBits dev true h bitMasks st).2 dev.ndelay := by
  rw [bitMasks_eq_append, xmitBits_append]
  refine ⟨(xmitBits dev true h
      [32768, 16384, 8192, 4096, 2048, 1024, 512, 256, 128, 64, 32, 16, 8, 4, 2] st).2,
    assignBit (assignBit (xmitBits dev true h
        [32768, 16384, 8192, 4096, 2048, 1024, 512, 256, 128, 64, 32, 16, 8, 4, 2] st).1
      SDI ((h &&& 1) != 0)) CKI true,
    ?_, testBit_assignBit_self _ CKI true (by decide)⟩
  simp [xmitBits, xmitBit_snd, hl, xmitBit_fst]

/-- The whole channel loop of a no-latch profile ends with the 600us hold
pattern on the final bit of the final channel. -/
theorem xmitChannels_ends_hold (dev : HW) (b : Int) (rest : List Int) (st : Nat)
    (hl : hasLatch dev = false) :
    EndsWith600Hold (xmitChannels dev (b :: rest) st).2 dev.ndelay := by
  induction rest generalizing b st with
  | nil =>
    rw [xmitChannels_cons]
    obtain ⟨pre, hi, htr, hcki⟩ :=
      xmitBits_last_channel_hold dev (hwvalOf b) st hl
    exact ⟨pre, hi, by simp [xmitChannels, htr], hcki⟩
  | cons b2 rest2 ih =>
    rw [xmitChannels_cons]
    obtain ⟨pre, hi, htr, hcki⟩ :=
      ih b2 (xmitBits dev (b2 :: rest2).isEmpty (hwvalOf b) bitMasks st).1
    refine ⟨(xmitBits dev (b2 :: rest2).isEmpty (hwvalOf b) bitMasks st).2 ++ pre, hi,
      ?_, hcki⟩
    rw [List.append_assoc, ← htr]

/-- A frame encode on a no-latch profile ends with the 600us hold pattern. -/
theorem handle_leds_ends_hold (dev : HW) (b : Int) (rest : List Int) (st : Nat)
    (hl : hasLatch dev = false) :
    EndsWith600Hold (handle_leds dev (b :: rest) st).2 dev.ndelay := by
  rw [handle_leds_nolatch_eq dev _ st hl]
  exact xmitChannels_ends_hold dev b rest st hl

/-- A frame encode on a latch-equipped profile ends with the latch pulse
pattern: latch raised and committed, one inter-bit delay, latch lowered and
committed — and nothing after the second commit. -/
theorem handle_leds_ends_latch_pulse (dev : HW) (brs : List Int) (st : Nat)
    (hl : hasLatch dev = true) :
    EndsWithLatchPulse (handle_leds dev brs st).2 dev.ndelay := by
  rw [handle_leds_latch_eq dev brs st hl]
  exact ⟨(xmitChannels dev brs st).2,
    assignBit (xmitChannels dev brs st).1 LEI true, rfl,
    testBit_assignBit_self _ LEI true (by decide)⟩

/-! ### The latch line is never touched while shifting bits -/

/-- Every commit of one bit transmission carries the unchanged latch
level. -/
theorem all_evLEIok_xmitBit (dev : HW) (L : Bool) (h bit st : Nat) (v : Bool)
    (hv : st.testBit LEI = v) :
    ((xmitBit dev L h bit st).2.all (evLEIok v)) = true := by
  have h2 : (assignBit (assignBit st SDI ((h &&& bit) != 0)) CKI true).testBit LEI = v := by
    rw [testBit_assignBit_other _ CKI LEI true (by decide) (by decide),
      testBit_assignBit_other _ SDI LEI _ (by decide) (by decide), hv]
  have h3 : (xmitBit dev L h bit st).1.testBit LEI = v := by
    rw [xmitBit_fst_lei, hv]
  rw [xmitBit_snd]
  simp only [List.all_cons, List.all_append, evLEIok, h2, h3]
  split <;> simp [evLEIok]

/-- The bit loop neither changes the staged latch level nor commits any
other latch level. -/
theorem all_evLEIok_xmitBits (dev : HW) (L : Bool) (h : Nat) (l : List Nat)
    (st : Nat) (v : Bool) (hv : st.testBit LEI = v) :
    ((xmitBits dev L h l st).1.testBit LEI = v) ∧
      ((xmitBits dev L h l st).2.all (evLEIok v)) = true := by
  induction l generalizing st with
  | nil => exact ⟨hv, rfl⟩
  | cons bit rest ih =>
    have hb := xmitBit_fst_lei dev L h bit st
    obtain ⟨ih1, ih2⟩ := ih (xmitBit dev L h bit st).1 (hb.trans hv)
    refine ⟨ih1, ?_⟩
    simp only [xmitBits, List.all_append]
    rw [all_evLEIok_xmitBit dev L h bit st v hv, ih2]
    rfl

/-- The whole channel loop neither changes the staged latch level nor
commits any other latch level. -/
theorem all_evLEIok_xmitChannels (dev : HW) (brs : List Int) (st : Nat)
    (v : Bool) (hv : st.testBit LEI = v) :
    ((xmitChannels dev brs st).1.testBit LEI = v) ∧
      ((xmitChannels dev brs st).2.all (evLEIok v)) = true := by
  induction brs generalizing st with
  | nil => exact ⟨hv, rfl⟩
  | cons b rest ih =>
    obtain ⟨h1, h2⟩ :=
      all_evLEIok_xmitBits dev rest.isEmpty (hwvalOf b) bitMasks st v hv
    obtain ⟨ih1, ih2⟩ := ih (xmitBits dev rest.isEmpty (hwvalOf b) bitMasks st).1 h1
    refine ⟨ih1, ?_⟩
    rw [xmitChannels_cons]
    simp only [List.all_append]
    rw [h2, ih2]
    rfl

/-! ### Commit and release counts -/

/-- One bit transmission performs exactly two commits (rising and falling
clock edge). -/
theorem countP_isCommitEv_xmitBit (dev : HW) (L : Bool) (h bit st : Nat) :
    ((xmitBit dev L h bit st).2.countP isCommitEv) = 2 := by
  rw [xmitBit_snd]
  split <;> simp [List.countP_cons, List.countP_nil, isCommitEv]

/-- The bit loop performs two commits per mask. -/
theorem countP_isCommitEv_xmitBits (dev : HW) (L : Bool) (h : Nat)
    (l : List Nat) (st : Nat) :
    ((xmitBits dev L h l st).2.countP isCommitEv) = 2 * l.length := by
  induction l generalizing st with
  | nil => simp [xmitBits]
  | cons bit rest ih =>
    simp only [xmitBits, List.countP_append, countP_isCommitEv_xmitBit, ih,
      List.length_cons]
    ring

/-- The channel loop performs 32 commits per channel. -/
theorem countP_isCommitEv_xmitChannels (dev : HW) (brs : List Int) (st : Nat) :
    ((xmitChannels dev brs st).2.countP isCommitEv) = 32 * brs.length := by
  induction brs generalizing st with
  | nil => simp [xmitChannels]
  | cons b rest ih =>
    rw [xmitChannels_cons]
    simp only [List.countP_append, countP_isCommitEv_xmitBits, ih,
      List.length_cons]
    simp [bitMasks]
    ring

/-- A frame encode performs 32 commits per channel plus two for the latch
pulse when the profile has a latch line — always the full frame. -/
theorem countP_isCommitEv_handle_leds (dev : HW) (brs : List Int) (st : Nat) :
    ((handle_leds dev brs st).2.countP isCommitEv) =
      32 * brs.length + (if hasLatch dev then 2 else 0) := by
  cases hl : hasLatch dev with
  | true =>
    rw [handle_leds_latch_eq dev brs st hl, List.countP_append,
      countP_isCommitEv_xmitChannels]
    simp [List.countP_cons, List.countP_nil, isCommitEv]
  | false =>
    rw [handle_leds_nolatch_eq dev brs st hl, countP_isCommitEv_xmitChannels]
    simp

/-- No event of a bit transmission is a GPIO release. -/
theorem countP_isRelease_xmitBit (dev : HW) (L : Bool) (h bit st : Nat) :
    ((xmitBit dev L h bit st).2.countP isRelease) = 0 := by
  rw [xmitBit_snd]
  split <;> simp [List.countP_cons, List.countP_nil, isRelease]

/-- No event of the bit loop is a GPIO release. -/
theorem countP_isRelease_xmitBits (dev : HW) (L : Bool) (h : Nat)
    (l : List Nat) (st : Nat) :
    ((xmitBits dev L h l st).2.countP isRelease) = 0 := by
  induction l generalizing st with
  | nil => simp [xmitBits]
  | cons bit rest ih =>
    simp only [xmitBits, List.countP_append, countP_isRelease_xmitBit, ih]

/-- No event of the channel loop is a GPIO release. -/
theorem countP_isRelease_xmitChannels (dev : HW) (brs : List Int) (st : Nat) :
    ((xmitChannels dev brs st).2.countP isRelease) = 0 := by
  induction brs generalizing st with
  | nil => simp [xmitChannels]
  | cons b rest ih =>
    rw [xmitChannels_cons]
    simp only [List.countP_append, countP_isRelease_xmitBits, ih]

/-- No event of a frame encode is a GPIO release. -/
theorem countP_isRelease_handle_leds (dev : HW) (brs : List Int) (st : Nat) :
    ((handle_leds dev brs st).2.countP isRelease) = 0 := by
  cases hl : hasLatch dev with
  | true =>
    rw [handle_leds_latch_eq dev brs st hl, List.countP_append,
      countP_isRelease_xmitChannels]
    simp [List.countP_cons, List.countP_nil, isRelease]
  | false =>
    rw [handle_leds_nolatch_eq dev brs st hl, countP_isRelease_xmitChannels]

end NU801

namespace NU801

/-! ### Final staged levels after an encode -/

/-- The staged word after a mask list ending in `bit` is the word after a
final `xmitBit` on `bit`. -/
theorem xmitBits_fst_append_single (dev : HW) (L : Bool) (h : Nat)
    (l : List Nat) (bit st : Nat) :
    (xmitBits dev L h (l ++ [bit]) st).1 =
      (xmitBit dev L h bit (xmitBits dev L h l st).1).1 := by
  rw [xmitBits_append]
  rfl

/-- After a full channel the staged clock level is low. -/
theorem xmitBits_bitMasks_cki (dev : HW) (L : Bool) (h st : Nat) :
    (xmitBits dev L h bitMasks st).1.testBit CKI = false := by
  rw [bitMasks_eq_append, xmitBits_fst_append_single]
  exact xmitBit_fst_cki dev L h 1 _

/-- After a full channel the staged data level is the channel word's lowest
bit. -/
theorem xmitBits_bitMasks_sdi (dev : HW) (L : Bool) (h st : Nat) :
    (xmitBits dev L h bitMasks st).1.testBit SDI = ((h &&& 1) != 0) := by
  rw [bitMasks_eq_append, xmitBits_fst_append_single]
  exact xmitBit_fst_sdi dev L h 1 _

/-- The channel loop on no channels leaves the staged word unchanged. -/
theorem xmitChannels_nil_fst (dev : HW) (st : Nat) :
    (xmitChannels dev [] st).1 = st := rfl

/-- After the whole channel loop the staged clock level is low. -/
theorem xmitChannels_fst_cki (dev : HW) (b : Int) (rest : List Int) (st : Nat) :
    (xmitChannels dev (b :: rest) st).1.testBit CKI = false := by
  induction rest generalizing b st with
  | nil =>
    rw [xmitChannels_cons, xmitChannels_nil_fst]
    exact xmitBits_bitMasks_cki dev _ (hwvalOf b) st
  | cons b2 rest2 ih =>
    rw [xmitChannels_cons]
    exact ih b2 _

/-- After the whole channel loop the staged data level is the lowest bit of
the last channel's PWM word. -/
theorem xmitChannels_fst_sdi (dev : HW) (b : Int) (rest : List Int) (st : Nat) :
    (xmitChannels dev (b :: rest) st).1.testBit SDI =
      ((hwvalOf ((b :: rest).getLast (List.cons_ne_nil b rest)) &&& 1) != 0) := by
  induction rest generalizing b st with
  | nil =>
    rw [xmitChannels_cons, xmitChannels_nil_fst, List.getLast_singleton]
    exact xmitBits_bitMasks_sdi dev _ (hwvalOf b) st
  | cons b2 rest2 ih =>
    rw [xmitChannels_cons, List.getLast_cons (List.cons_ne_nil b2 rest2)]
    exact ih b2 _

/-- After any frame encode the staged clock level is low. -/
theorem handle_leds_fst_cki (dev : HW) (b : Int) (rest : List Int) (st : Nat) :
    (handle_leds dev (b :: rest) st).1.testBit CKI = false := by
  cases hl : hasLatch dev with
  | true =>
    rw [handle_leds_latch_eq dev _ st hl]
    rw [testBit_assignBit_other _ LEI CKI false (by decide) (by decide),
      testBit_assignBit_other _ LEI CKI true (by decide) (by decide)]
    exact xmitChannels_fst_cki dev b rest st
  | false =>
    rw [handle_leds_nolatch_eq dev _ st hl]
    exact xmitChannels_fst_cki dev b rest st

/-- After any frame encode the staged data level is the lowest bit of the
last channel's PWM word. -/
theorem handle_leds_fst_sdi (dev : HW) (b : Int) (rest : List Int) (st : Nat) :
    (handle_leds dev (b :: rest) st).1.testBit SDI =
      ((hwvalOf ((b :: rest).getLast (List.cons_ne_nil b rest)) &&& 1) != 0) := by
  cases hl : hasLatch dev with
  | true =>
    rw [handle_leds_latch_eq dev _ st hl]
    rw [testBit_assignBit_other _ LEI SDI false (by decide) (by decide),
      testBit_assignBit_other _ LEI SDI true (by decide) (by decide)]
    exact xmitChannels_fst_sdi dev b rest st
  | false =>
    rw [handle_leds_nolatch_eq dev _ st hl]
    exact xmitChannels_fst_sdi dev b rest st

/-- After a frame encode on a latch-equipped profile the staged latch level
is low. -/
theorem handle_leds_fst_lei (dev : HW) (brs : List Int) (st : Nat)
    (hl : hasLatch dev = true) :
    (handle_leds dev brs st).1.testBit LEI = false := by
  rw [handle_leds_latch_eq dev brs st hl]
  exact testBit_assignBit_self _ LEI false (by decide)

/-! ### Arithmetic shape of the PWM word -/

/-- The truncated shift `hwval = brightness << 8` keeps exactly the low 8
bits of the 32-bit brightness, scaled by 256. -/
theorem hwvalOf_eq (b : Int) : hwvalOf b = ((b % 256).toNat) * 256 := by
  unfold hwvalOf toU32
  rw [Nat.shiftLeft_eq]
  rw [show (2:Nat) ^ 8 = 256 from rfl,
    show (2:Nat) ^ 16 = 256 * 256 from rfl, Nat.mul_mod_mul_right]
  congr 1
  rw [show (2:Int) ^ 32 = 4294967296 from rfl]
  omega

/-! ### Serve-loop drain lemmas -/

/-- One-step unfolding of the drain loop. -/
theorem drainLeds_cons (ready : Nat → Bool) (rd : Nat → ReadResult)
    (l : Led) (rest : List Led) (i : Nat) :
    drainLeds ready rd (l :: rest) i =
      if ready i then
        match rd i with
        | .data b =>
          ({ l with brightness := b } :: (drainLeds ready rd rest (i + 1)).1,
            (drainLeds ready rd rest (i + 1)).2)
        | .eof => (l :: rest, some 0)
        | .err => (l :: rest, some (-1))
      else
        (l :: (drainLeds ready rd rest (i + 1)).1,
          (drainLeds ready rd rest (i + 1)).2) := rfl

/-- If some ready channel's read fails, the drain loop reports a failure. -/
theorem drainLeds_some_of_fail (ready : Nat → Bool) (rd : Nat → ReadResult) :
    ∀ (leds : List Led) (i0 : Nat),
      (∃ j, j < leds.length ∧ ready (i0 + j) = true ∧ readFails (rd (i0 + j)) = true) →
      ((drainLeds ready rd leds i0).2).isSome = true := by
  intro leds
  induction leds with
  | nil =>
    intro i0 hj
    obtain ⟨j, hj, _, _⟩ := hj
    simp at hj
  | cons l rest ih =>
    intro i0 hj
    obtain ⟨j, hj, hr, hf⟩ := hj
    rw [drainLeds_cons]
    by_cases hri : ready i0
    · rw [if_pos hri]
      cases hrd : rd i0 with
      | data b =>
        simp only
        apply ih (i0 + 1)
        cases j with
        | zero =>
          exfalso
          rw [Nat.add_zero, hrd] at hf
          simp [readFails] at hf
        | succ k =>
          refine ⟨k, by simpa using hj, ?_, ?_⟩
          · rw [show i0 + 1 + k = i0 + (k + 1) from by omega]; exact hr
          · rw [show i0 + 1 + k = i0 + (k + 1) from by omega]; exact hf
      | eof => rfl
      | err => rfl
    · rw [if_neg hri]
      simp only
      apply ih (i0 + 1)
      cases j with
      | zero =>
        exfalso
        rw [Nat.add_zero] at hr
        exact hri hr
      | succ k =>
        refine ⟨k, by simpa using hj, ?_, ?_⟩
        · rw [show i0 + 1 + k = i0 + (k + 1) from by omega]; exact hr
        · rw [show i0 + 1 + k = i0 + (k + 1) from by omega]; exact hf

/-- The drain loop only ever reports 0 (EOF) or -1 (read error). -/
theorem drainLeds_snd_cases (ready : Nat → Bool) (rd : Nat → ReadResult) :
    ∀ (leds : List Led) (i0 : Nat) (r : Int),
      (drainLeds ready rd leds i0).2 = some r → r = 0 ∨ r = -1 := by
  intro leds
  induction leds with
  | nil =>
    intro i0 r h
    simp [drainLeds] at h
  | cons l rest ih =>
    intro i0 r h
    rw [drainLeds_cons] at h
    by_cases hri : ready i0
    · rw [if_pos hri] at h
      cases hrd : rd i0 with
      | data b => rw [hrd] at h; exact ih (i0 + 1) r h
      | eof =>
        rw [hrd] at h
        exact Or.inl (Option.some.inj h).symm
      | err =>
        rw [hrd] at h
        exact Or.inr (Option.some.inj h).symm
    · rw [if_neg hri] at h
      exact ih (i0 + 1) r h

/-- `serveWakeup` as a case split on the drain result. -/
theorem serveWakeup_eq (dev : HW) (leds : List Led) (busBits : Nat)
    (ready : Nat → Bool) (rd : Nat → ReadResult) :
    serveWakeup dev leds busBits ready rd =
      match (drainLeds ready rd leds 0).2 with
      | some r => StepOut.exitLoop r (drainLeds ready rd leds 0).1
      | none => StepOut.cont (drainLeds ready rd leds 0).1
          (handle_leds dev ((drainLeds ready rd leds 0).1.map (·.brightness)) busBits).2
          (handle_leds dev ((drainLeds ready rd leds 0).1.map (·.brightness)) busBits).1 :=
  rfl

/-- The serve loop continues exactly when no ready read failed. -/
theorem serveWakeup_isCont (dev : HW) (leds : List Led) (busBits : Nat)
    (ready : Nat → Bool) (rd : Nat → ReadResult) :
    (serveWakeup dev leds busBits ready rd).isCont =
      ((drainLeds ready rd leds 0).2).isNone := by
  rw [serveWakeup_eq]
  cases h : (drainLeds ready rd leds 0).2 <;> simp [StepOut.isCont]

/-! ### Teardown lemmas -/

/-- Zeroing every LED's brightness and reading the values back yields the
all-zero brightness vector. -/
theorem map_brightness_zero (ls : List Led) :
    ((ls.map fun l => { l with brightness := 0 }).map (fun l => l.brightness)) =
      List.replicate ls.length 0 := by
  induction ls with
  | nil => rfl
  | cons l rest ih => simp [List.replicate_succ, ih]

/-- Closing an already-closed LED handle changes nothing. -/
theorem closeLed_closeLed (l : Led) : closeLed (closeLed l) = closeLed l := by
  have hneg : ¬ ((-1 : Int) > 0) := by decide
  by_cases h : l.fd > 0 <;> simp [closeLed, h, hneg]

/-- Closing all handles twice equals closing them once. -/
theorem map_closeLed_idem (ls : List Led) :
    (ls.map closeLed).map closeLed = ls.map closeLed := by
  induction ls with
  | nil => rfl
  | cons l rest ih => simp [ih, closeLed_closeLed]

/-- `closeLed` does not change the stored brightness. -/
theorem closeLed_brightness (l : Led) : (closeLed l).brightness = l.brightness := by
  unfold closeLed
  split <;> rfl

/-- `teardown` with the GPIO handle held: zero the channels, commit one
all-zero frame, release the lines, close the LED handles. -/
theorem teardown_eq_pos (dev : HW) (st : TState) (h : st.gpio_fd > 0) :
    teardown dev st =
      ({ leds := (st.leds.map fun l => { l with brightness := 0 }).map closeLed,
          busBits := (handle_leds dev (List.replicate st.leds.length 0) st.busBits).1,
          gpio_fd := -1 },
        (handle_leds dev (List.replicate st.leds.length 0) st.busBits).2 ++ [Ev.release]) := by
  simp only [teardown]
  rw [if_pos h]
  rw [map_brightness_zero]

/-- `teardown` with the GPIO handle already released: no GPIO activity at
all, only still-open LED handles are closed. -/
theorem teardown_eq_neg (dev : HW) (st : TState) (h : ¬ st.gpio_fd > 0) :
    teardown dev st = ({ st with leds := st.leds.map closeLed }, []) := by
  unfold teardown
  rw [if_neg h]

end NU801

namespace NU801

/-- A failed drain makes the wake-up exit the serve loop with the drain's
error code. -/
theorem serveWakeup_exit (dev : HW) (leds : List Led) (busBits : Nat)
    (ready : Nat → Bool) (rd : Nat → ReadResult) (r : Int)
    (h : (drainLeds ready rd leds 0).2 = some r) :
    serveWakeup dev leds busBits ready rd =
      StepOut.exitLoop r (drainLeds ready rd leds 0).1 := by
  rw [serveWakeup_eq, h]

/-- The GPIO trace of the `out:` epilogue is the teardown trace. -/
theorem serve_exit_trace (dev : HW) (st : TState) (ret : Int) :
    (serve_exit dev st ret).2.1 = (teardown dev st).2 := rfl

/-- The exit code of the `out:` epilogue:
`ret ? EXIT_FAILURE : EXIT_SUCCESS`. -/
theorem serve_exit_code (dev : HW) (st : TState) (ret : Int) :
    (serve_exit dev st ret).2.2 = if ret ≠ 0 then 1 else 0 := rfl

/-- LED table after `teardown` with the GPIO held: brightness zeroed, then
handles closed. -/
theorem teardown_leds_pos (dev : HW) (st : TState) (h : st.gpio_fd > 0) :
    (teardown dev st).1.leds =
      (st.leds.map fun l => { l with brightness := 0 }).map closeLed := by
  rw [teardown_eq_pos dev st h]

/-- `gpio_fd` after `teardown` with the GPIO held is -1. -/
theorem teardown_gpio_pos (dev : HW) (st : TState) (h : st.gpio_fd > 0) :
    (teardown dev st).1.gpio_fd = -1 := by
  rw [teardown_eq_pos dev st h]

/-- GPIO trace of `teardown` with the GPIO held: one all-zero frame followed
by the release. -/
theorem teardown_snd_pos (dev : HW) (st : TState) (h : st.gpio_fd > 0) :
    (teardown dev st).2 =
      (handle_leds dev (List.replicate st.leds.length 0) st.busBits).2 ++
        [Ev.release] := by
  rw [teardown_eq_pos dev st h]

/-- A teardown that held the GPIO releases it exactly once. -/
theorem teardown_release_once (dev : HW) (st : TState) (h : st.gpio_fd > 0) :
    (teardown dev st).2.countP isRelease = 1 := by
  rw [teardown_snd_pos dev st h, List.countP_append, countP_isRelease_handle_leds]
  rfl

/-- Running `teardown` again after a completed teardown changes nothing and
performs no GPIO operation. -/
theorem teardown_idem (dev : HW) (st : TState) (h : st.gpio_fd > 0) :
    teardown dev (teardown dev st).1 = ((teardown dev st).1, []) := by
  have hg : ¬ ((teardown dev st).1.gpio_fd > 0) := by
    rw [teardown_gpio_pos dev st h]
    decide
  rw [teardown_eq_neg dev _ hg, teardown_leds_pos dev st h, map_closeLed_idem,
    ← teardown_leds_pos dev st h]

end NU801

namespace NU801

/-- C1 counterexample: a serve-loop wake-up on "cisco-mx100-hw" in an
environment where every underlying `gpiotools_set_values` write fails (the
outcome oracle is constantly false): all 98 commit outcomes of the frame are
failures, yet the full 98-commit frame is still emitted and the dispatcher
continues the loop — the failed commits neither abort the frame nor
terminate the serve loop, refuting the claim that a failed commit is treated
as fatal. -/
theorem C1_counterexample :
    (serveWakeup cisco_mx100_hw [⟨3, 0⟩, ⟨4, 0⟩, ⟨5, 0⟩] 0 (fun _ => true)
        (fun _ => ReadResult.data 5)).isCont = true ∧
    (serveWakeup cisco_mx100_hw [⟨3, 0⟩, ⟨4, 0⟩, ⟨5, 0⟩] 0 (fun _ => true)
        (fun _ => ReadResult.data 5)).traceOf.countP isCommitEv = 98 ∧
    commitOutcomes (fun _ => false)
        ((serveWakeup cisco_mx100_hw [⟨3, 0⟩, ⟨4, 0⟩, ⟨5, 0⟩] 0 (fun _ => true)
          (fun _ => ReadResult.data 5)).traceOf) = List.replicate 98 false := by
  decide

/-- C1 (amended): `gpio_commit` is `void` and discards the result of the
underlying `gpiotools_set_values` write, so a failed commit is silently
swallowed rather than treated as fatal: every frame encode unconditionally
commits the full frame — 32 commits per channel plus 2 for the latch
pulse — whatever the write outcomes are, and the serve loop's continue/exit
decision is a function of the device read results alone (it never consults
commit outcomes). -/
theorem C1_commit_failures_swallowed (dev : HW) (brs : List Int) (st : Nat)
    (okOf : Nat → Bool) :
    ((handle_leds dev brs st).2.countP isCommitEv =
      32 * brs.length + (if hasLatch dev then 2 else 0)) ∧
    (commitOutcomes okOf (handle_leds dev brs st).2 =
      (List.range (32 * brs.length + (if hasLatch dev then 2 else 0))).map okOf) ∧
    (∀ (leds : List Led) (busBits : Nat) (ready : Nat → Bool) (rd : Nat → ReadResult),
      (serveWakeup dev leds busBits ready rd).isCont =
        ((drainLeds ready rd leds 0).2).isNone) := by
  refine ⟨countP_isCommitEv_handle_leds dev brs st, ?_,
    fun leds busBits ready rd => serveWakeup_isCont dev leds busBits ready rd⟩
  unfold commitOutcomes
  rw [countP_isCommitEv_handle_leds]

/-- C2 counterexample: one registered channel whose device read returns 0
bytes (EOF) on a wake-up: the serve loop exits carrying `ret = 0`, teardown
runs, and the process returns `EXIT_SUCCESS` — exit code 0, not non-zero as
claimed (`ret = ((ret < 0) ? -1 : ret)` keeps EOF at 0 and
`return ret ? EXIT_FAILURE : EXIT_SUCCESS` maps it to success). -/
theorem C2_counterexample :
    serveWakeup meraki_z1 [⟨3, 7⟩] 0 (fun _ => true) (fun _ => ReadResult.eof) =
      StepOut.exitLoop 0 [⟨3, 7⟩] ∧
    (serve_exit meraki_z1 { leds := [⟨3, 7⟩], busBits := 0, gpio_fd := 1 } 0).2.2 = 0 := by
  decide

/-- C2 (amended): on every serve-loop wake-up in which some ready channel's
device read returns EOF or an error, the dispatcher exits the serve loop
carrying the drain result (0 for EOF, -1 for a read error), control passes
through `teardown` exactly once (exactly one GPIO release in the epilogue
trace), and the process exit code is `EXIT_FAILURE` (1) for a read error but
`EXIT_SUCCESS` (0) for EOF. -/
theorem C2_read_failure_exits (dev : HW) (leds : List Led) (busBits : Nat)
    (gfd : Int) (ready : Nat → Bool) (rd : Nat → ReadResult)
    (hg : gfd > 0)
    (hfail : ∃ j, j < leds.length ∧ ready j = true ∧ readFails (rd j) = true) :
    ∃ r : Int,
      serveWakeup dev leds busBits ready rd =
        StepOut.exitLoop r (drainLeds ready rd leds 0).1 ∧
      (r = 0 ∨ r = -1) ∧
      (serve_exit dev
          { leds := (drainLeds ready rd leds 0).1, busBits := busBits, gpio_fd := gfd }
          r).2.1.countP isRelease = 1 ∧
      (serve_exit dev
          { leds := (drainLeds ready rd leds 0).1, busBits := busBits, gpio_fd := gfd }
          r).2.2 = (if r = 0 then 0 else 1) := by
  have hs : ((drainLeds ready rd leds 0).2).isSome = true := by
    apply drainLeds_some_of_fail ready rd leds 0
    simpa using hfail
  obtain ⟨r, hr⟩ := Option.isSome_iff_exists.mp hs
  refine ⟨r, serveWakeup_exit dev leds busBits ready rd r hr,
    drainLeds_snd_cases ready rd leds 0 r hr, ?_, ?_⟩
  · rw [serve_exit_trace]
    exact teardown_release_once dev _ hg
  · rw [serve_exit_code]
    by_cases hr0 : r = 0 <;> simp [hr0]

/-- C2 witness: the amended dispatcher-exit theorem instantiated at
"meraki,z1", one channel whose read returns EOF on a ready handle. -/
theorem C2_witness :
    (1 : Int) > 0 ∧
    (∃ j, j < ([(⟨3, 7⟩ : Led)] : List Led).length ∧ (fun _ => true) j = true ∧
      readFails ((fun _ => ReadResult.eof) j) = true) ∧
    (∃ r : Int,
      serveWakeup meraki_z1 [⟨3, 7⟩] 0 (fun _ => true) (fun _ => ReadResult.eof) =
        StepOut.exitLoop r
          (drainLeds (fun _ => true) (fun _ => ReadResult.eof) [⟨3, 7⟩] 0).1 ∧
      (r = 0 ∨ r = -1) ∧
      (serve_exit meraki_z1
          { leds := (drainLeds (fun _ => true) (fun _ => ReadResult.eof) [⟨3, 7⟩] 0).1,
            busBits := 0, gpio_fd := 1 }
          r).2.1.countP isRelease = 1 ∧
      (serve_exit meraki_z1
          { leds := (drainLeds (fun _ => true) (fun _ => ReadResult.eof) [⟨3, 7⟩] 0).1,
            busBits := 0, gpio_fd := 1 }
          r).2.2 = (if r = 0 then 0 else 1)) :=
  ⟨by decide, ⟨0, by decide, rfl, rfl⟩,
    C2_read_failure_exits meraki_z1 [⟨3, 7⟩] 0 1 (fun _ => true)
      (fun _ => ReadResult.eof) (by decide) ⟨0, by decide, rfl, rfl⟩⟩

end NU801

namespace NU801

/-- C3 counterexample: the claim describes "cisco-mx100-hw" as having no
latch line and its [0,0,0] frame as ending in a terminal 600us clock-high
hold with no extra pulses; in the code this catalog entry has lei = 5 — a
real latch line — and its [0,0,0] encode performs no 600us hold at all while
committing the latch line high once (an extra pulse the claim excludes). -/
theorem C3_counterexample :
    hasLatch cisco_mx100_hw = true ∧
    (handle_leds cisco_mx100_hw [0, 0, 0] 0).2.countP isHold = 0 ∧
    (handle_leds cisco_mx100_hw [0, 0, 0] 0).2.countP
      (fun e => match e with | Ev.commit bits => bits.testBit LEI | _ => false) = 1 := by
  decide

/-- C3 (amended): "cisco-mx100-hw" has a dedicated latch line (lei = 5), so
encoding the brightness vector [0,0,0] emits 48 data bits all equal to zero
(the data line is low at every one of the 48 rising clock edges), performs
no 600-microsecond clock-high hold, and ends with the latch pulse: latch
committed high, one 150 ns inter-bit delay, latch committed low. -/
theorem C3_mx100_zero_frame :
    hasLatch cisco_mx100_hw = true ∧
    dataBitsAtRisingClock (handle_leds cisco_mx100_hw [0, 0, 0] 0).2 =
      List.replicate 48 false ∧
    (handle_leds cisco_mx100_hw [0, 0, 0] 0).2.countP isHold = 0 ∧
    (handle_leds cisco_mx100_hw [0, 0, 0] 0).2.drop
        ((handle_leds cisco_mx100_hw [0, 0, 0] 0).2.length - 3) =
      [Ev.commit 4, Ev.delayN 150, Ev.commit 0] := by
  decide

/-- C4 counterexample: the claim says the "meraki,z1" frame for [255,128,0]
is followed by a latch pulse and has no 600us hold; in the code this entry
has lei = `~0` (no latch line at all), the encode performs exactly one 600us
clock-high hold, and the latch line is never committed high. -/
theorem C4_counterexample :
    hasLatch meraki_z1 = false ∧
    (handle_leds meraki_z1 [255, 128, 0] 0).2.countP isHold = 1 ∧
    (handle_leds meraki_z1 [255, 128, 0] 0).2.countP
      (fun e => match e with | Ev.commit bits => bits.testBit LEI | _ => false) = 0 := by
  decide

/-- C4 (amended): "meraki,z1" has no latch line, so encoding [255,128,0]
emits exactly the 16-bit words 0xFF00, 0x8000, 0x0000 MSB-first across the
three channels in declared order (data levels at the 48 rising clock edges),
with no latch pulse; the frame ends with the 600-microsecond clock-high hold
on the final bit of the final channel, the falling-edge commit and the
500 ns inter-bit delay. -/
theorem C4_z1_frame :
    hasLatch meraki_z1 = false ∧
    hwvalOf 255 = 0xFF00 ∧ hwvalOf 128 = 0x8000 ∧ hwvalOf 0 = 0x0000 ∧
    dataBitsAtRisingClock (handle_leds meraki_z1 [255, 128, 0] 0).2 =
      (List.replicate 8 true ++ List.replicate 8 false) ++
        ((true :: List.replicate 15 false) ++ List.replicate 16 false) ∧
    (handle_leds meraki_z1 [255, 128, 0] 0).2.countP
      (fun e => match e with | Ev.commit bits => bits.testBit LEI | _ => false) = 0 ∧
    (handle_leds meraki_z1 [255, 128, 0] 0).2.drop
        ((handle_leds meraki_z1 [255, 128, 0] 0).2.length - 4) =
      [Ev.commit 1, Ev.delayU 600, Ev.commit 0, Ev.delayN 500] := by
  decide

/-- C5: the two end-of-frame strategies are mutually exclusive.  For every
hardware profile without a latch line and every non-empty brightness vector,
a frame encode emits exactly one 600us clock-high hold, ends with the hold
pattern on the final bit of the final channel (rising-edge commit, 600us
hold, falling-edge commit, inter-bit delay) and never commits any change of
the latch level; for every profile with a latch line, a frame encode emits
no 600us hold at all and ends with the latch pulse high-then-low. -/
theorem C5_latch_policy (dev : HW) (b : Int) (rest : List Int) (st : Nat) :
    (hasLatch dev = false →
      ((handle_leds dev (b :: rest) st).2.countP isHold = 1 ∧
        EndsWith600Hold (handle_leds dev (b :: rest) st).2 dev.ndelay ∧
        ((handle_leds dev (b :: rest) st).2.all
          (evLEIok (st.testBit LEI))) = true)) ∧
    (hasLatch dev = true →
      ((handle_leds dev (b :: rest) st).2.countP isHold = 0 ∧
        EndsWithLatchPulse (handle_leds dev (b :: rest) st).2 dev.ndelay)) := by
  constructor
  · intro hl
    refine ⟨?_, handle_leds_ends_hold dev b rest st hl, ?_⟩
    · rw [countP_isHold_handle_leds, hl]
      rfl
    · rw [handle_leds_nolatch_eq dev _ st hl]
      exact (all_evLEIok_xmitChannels dev (b :: rest) st (st.testBit LEI) rfl).2
  · intro hl
    refine ⟨?_, handle_leds_ends_latch_pulse dev (b :: rest) st hl⟩
    rw [countP_isHold_handle_leds, hl]
    rfl

/-- C5 witness: the latch policy instantiated on the no-latch profile
"meraki,z1" with the one-channel brightness vector [0]. -/
theorem C5_witness :
    hasLatch meraki_z1 = false ∧
    ((handle_leds meraki_z1 [0] 0).2.countP isHold = 1 ∧
      EndsWith600Hold (handle_leds meraki_z1 [0] 0).2 meraki_z1.ndelay ∧
      ((handle_leds meraki_z1 [0] 0).2.all (evLEIok (Nat.testBit 0 LEI))) = true) :=
  ⟨rfl, (C5_latch_policy meraki_z1 0 [] 0).1 rfl⟩

/-- C6: for brightness b in [0,255] the encoded PWM word is exactly
`(b << 8) & 0xFFFF`; for every 32-bit signed brightness — in range or not —
the encoder keeps only the low 8 bits of the value, shifted left by 8
(truncation, never clamping). -/
theorem C6_pwm_mapping (b : Int) (h1 : -(2 ^ 31) ≤ b) (h2 : b < 2 ^ 31) :
    (0 ≤ b → b ≤ 255 → hwvalOf b = ((b.toNat <<< 8) &&& 0xFFFF)) ∧
    hwvalOf b = ((b % 256).toNat) <<< 8 := by
  have key := hwvalOf_eq b
  constructor
  · intro hb0 hb255
    rw [key, Nat.shiftLeft_eq,
      show (0xFFFF : Nat) = 2 ^ 16 - 1 from rfl, Nat.and_pow_two_sub_one_eq_mod]
    rw [show (2 : Nat) ^ 8 = 256 from rfl, show (2 : Nat) ^ 16 = 65536 from rfl]
    omega
  · rw [key, Nat.shiftLeft_eq, show (2 : Nat) ^ 8 = 256 from rfl]

/-- C6 witness: the PWM mapping theorem applied at the in-range brightness
100 (and the truncation formula checked there). -/
theorem C6_witness :
    -(2 ^ 31) ≤ (100 : Int) ∧ (100 : Int) < 2 ^ 31 ∧
    ((0 ≤ (100 : Int) → (100 : Int) ≤ 255 →
      hwvalOf 100 = (((100 : Int).toNat <<< 8) &&& 0xFFFF)) ∧
    hwvalOf 100 = (((100 : Int) % 256).toNat) <<< 8) :=
  ⟨by decide, by decide, C6_pwm_mapping 100 (by decide) (by decide)⟩

/-- C7 counterexample: on "cisco-mx100-hw" (latch line present) the very
last event of a [0,0,0] frame encode is the commit of the lowered latch —
no inter-bit delay follows the second latch edge, contradicting the claim
that each of the two edges is followed by a commit and by the inter-bit
delay. -/
theorem C7_counterexample :
    hasLatch cisco_mx100_hw = true ∧
    (handle_leds cisco_mx100_hw [0, 0, 0] 0).2.getLast? = some (Ev.commit 0) := by
  decide

/-- C7 (amended): on every profile with a dedicated latch line, every frame
encode ends with the latch pulse in this exact shape: the raising edge is
followed by a commit and the profile's inter-bit delay, and the lowering
edge is followed by a commit only — the frame ends there, with no trailing
delay. -/
theorem C7_latch_pulse_shape (dev : HW) (brs : List Int) (st : Nat)
    (hl : hasLatch dev = true) :
    EndsWithLatchPulse (handle_leds dev brs st).2 dev.ndelay :=
  handle_leds_ends_latch_pulse dev brs st hl

/-- C7 witness: the latch-pulse shape on "cisco-mx100-hw" with brightness
vector [0,0,0]. -/
theorem C7_witness :
    hasLatch cisco_mx100_hw = true ∧
    EndsWithLatchPulse (handle_leds cisco_mx100_hw [0, 0, 0] 0).2
      cisco_mx100_hw.ndelay :=
  ⟨rfl, C7_latch_pulse_shape cisco_mx100_hw [0, 0, 0] 0 rfl⟩

/-- C8: teardown round trip.  When teardown runs with the GPIO handle held
(`gpio_fd > 0`): afterwards every channel's brightness is 0; the GPIO trace
is exactly one full frame encode of the all-zero brightness vector followed
by the release of the lines; `gpio_fd` is -1 afterwards, so no further
commit can be issued; and running teardown again is a no-op — identical
state and an empty GPIO trace, no commit and no second release. -/
theorem C8_teardown_roundtrip (dev : HW) (st : TState) (h : st.gpio_fd > 0) :
    (∀ l ∈ (teardown dev st).1.leds, l.brightness = 0) ∧
    ((teardown dev st).2 =
      (handle_leds dev (List.replicate st.leds.length 0) st.busBits).2 ++
        [Ev.release]) ∧
    ((teardown dev st).1.gpio_fd = -1) ∧
    teardown dev (teardown dev st).1 = ((teardown dev st).1, []) := by
  refine ⟨?_, teardown_snd_pos dev st h, teardown_gpio_pos dev st h,
    teardown_idem dev st h⟩
  intro l hl
  rw [teardown_leds_pos dev st h] at hl
  simp only [List.mem_map] at hl
  obtain ⟨l1, ⟨l0, hl0, rfl⟩, rfl⟩ := hl
  rw [closeLed_brightness]

/-- C8 witness: the teardown round trip on "meraki,z1" from a state holding
the GPIO with one LED at brightness 200. -/
theorem C8_witness :
    (({ leds := [⟨3, 200⟩], busBits := 0, gpio_fd := 1 } : TState).gpio_fd > 0) ∧
    ((∀ l ∈ (teardown meraki_z1
        { leds := [⟨3, 200⟩], busBits := 0, gpio_fd := 1 }).1.leds,
        l.brightness = 0) ∧
      ((teardown meraki_z1 { leds := [⟨3, 200⟩], busBits := 0, gpio_fd := 1 }).2 =
        (handle_leds meraki_z1
          (List.replicate ([(⟨3, 200⟩ : Led)] : List Led).length 0) 0).2 ++
          [Ev.release]) ∧
      ((teardown meraki_z1
        { leds := [⟨3, 200⟩], busBits := 0, gpio_fd := 1 }).1.gpio_fd = -1) ∧
      teardown meraki_z1
          (teardown meraki_z1 { leds := [⟨3, 200⟩], busBits := 0, gpio_fd := 1 }).1 =
        ((teardown meraki_z1 { leds := [⟨3, 200⟩], busBits := 0, gpio_fd := 1 }).1,
          [])) :=
  ⟨by decide,
    C8_teardown_roundtrip meraki_z1
      { leds := [⟨3, 200⟩], busBits := 0, gpio_fd := 1 } (by decide)⟩

/-- C9 (code bug): `fatal_error_signal` invoked while
`fatal_error_in_progress` is already set — the state a second fatal signal
finds when it preempts the first handler mid-teardown (latch raised, GPIO
still held).  The handler does call `raise(sig)`, but `sig` is blocked while
its own handler runs, so the raise only marks it pending and returns; the
body has no `return`, execution falls through, and `teardown()` is entered
again with real GPIO work — the latch does not prevent re-entering teardown,
contrary to the claim and to the code's own "catch cascading errors"
comment. -/
theorem C9_latch_fails_to_stop_teardown :
    (fatal_error_signal meraki_z1 15
        { flag := true,
          tstate := { leds := [⟨4, 9⟩], busBits := 0, gpio_fd := 1 } }).2.head? =
      some (SigAct.raised 15) ∧
    (fatal_error_signal meraki_z1 15
        { flag := true,
          tstate := { leds := [⟨4, 9⟩], busBits := 0, gpio_fd := 1 } }).2.countP
      isTeardownWork = 1 := by
  decide

/-- C10: after every completed frame encode the staged clock line is at
logical level 0, and on a profile with a latch line the staged latch level
is 0 as well; the staged data line retains exactly the last transmitted bit
(the lowest bit of the final channel's PWM word). -/
theorem C10_bus_idle_levels (dev : HW) (b : Int) (rest : List Int) (st : Nat) :
    ((handle_leds dev (b :: rest) st).1.testBit CKI = false) ∧
    (hasLatch dev = true → (handle_leds dev (b :: rest) st).1.testBit LEI = false) ∧
    ((handle_leds dev (b :: rest) st).1.testBit SDI =
      ((hwvalOf ((b :: rest).getLast (List.cons_ne_nil b rest)) &&& 1) != 0)) :=
  ⟨handle_leds_fst_cki dev b rest st,
    fun hl => handle_leds_fst_lei dev (b :: rest) st hl,
    handle_leds_fst_sdi dev b rest st⟩

/-- C10 witness: the idle-level theorem on "cisco-mx100-hw" (latch present)
with the one-channel brightness vector [7], discharging the latch-side
implication. -/
theorem C10_witness :
    hasLatch cisco_mx100_hw = true ∧
    ((handle_leds cisco_mx100_hw [7] 0).1.testBit CKI = false) ∧
    ((handle_leds cisco_mx100_hw [7] 0).1.testBit LEI = false) :=
  ⟨rfl, (C10_bus_idle_levels cisco_mx100_hw 7 [] 0).1,
    (C10_bus_idle_levels cisco_mx100_hw 7 [] 0).2.1 rfl⟩

end NU801
